import Mathlib

/-!
Verification development for the `pyicloud` reminders service
(`src/pyicloud/services/reminders.py`).

The Python source is shallowly embedded: Python strings are `List Char`
(sequences of code points; `str.lower` is modelled on ASCII, which covers
every field name this service handles), Python JSON-compatible values are
the inductive `PyVal`, Python `dict`s are association lists with distinct
keys (`PyEntries`), exceptions are an explicit error type `Err` threaded
through `Except`, and the `json.loads` collaborator (standard library,
outside this repository) is an explicit function parameter.
-/

namespace Reminders

/-! ### Field-name canonicalization (`to_snake_case`, reminders.py lines 32-38)

The source:
```
snake_case_pattern = re.compile(r"(?<=[a-z])(?=[A-Z])|(?<=[A-Z])(?=[A-Z][a-z])")
def to_snake_case(data: str) -> str:
    return snake_case_pattern.sub("_", data).lower().replace("_i_ds", "_ids")
```
`snakeSub` inserts `'_'` at every position where the zero-width regex
matches: after a lowercase letter followed by an uppercase one, or after an
uppercase letter followed by an uppercase-then-lowercase pair.
-/

def isUpC (c : Char) : Bool := 65 ≤ c.toNat && c.toNat ≤ 90

def isLowC (c : Char) : Bool := 97 ≤ c.toNat && c.toNat ≤ 122

def headIsLow : List Char → Bool
  | c :: _ => isLowC c
  | [] => false

def snakeBoundary (c1 c2 : Char) (rest : List Char) : Bool :=
  (isLowC c1 && isUpC c2) || (isUpC c1 && isUpC c2 && headIsLow rest)

def snakeSub : List Char → List Char
  | [] => []
  | [c] => [c]
  | c1 :: c2 :: rest =>
    if snakeBoundary c1 c2 rest then c1 :: '_' :: snakeSub (c2 :: rest)
    else c1 :: snakeSub (c2 :: rest)

/-- Model of `str.lower`, restricted to ASCII (every field name this service handles
is ASCII; other characters pass through unchanged in this model). -/
def lowerC (c : Char) : Char := if isUpC c then Char.ofNat (c.toNat + 32) else c

def pyLower (l : List Char) : List Char := l.map lowerC

/-- Model of `str.replace("_i_ds", "_ids")`: a left-to-right scan replacing each
non-overlapping occurrence. -/
def replaceIDs : List Char → List Char
  | '_' :: 'i' :: '_' :: 'd' :: 's' :: rest => '_' :: 'i' :: 'd' :: 's' :: replaceIDs rest
  | c :: rest => c :: replaceIDs rest
  | [] => []

def to_snake_case (l : List Char) : List Char := replaceIDs (pyLower (snakeSub l))

def toSnakeStr (s : String) : String := String.mk (to_snake_case s.data)

/-! #### Idempotence of `to_snake_case` -/

theorem charOfNat_toNat (n : Nat) (h : n < 55296) : (Char.ofNat n).toNat = n := by
  unfold Char.ofNat
  split
  · simp [Char.toNat, Char.ofNatAux, UInt32.toNat]
  · rename_i hc
    exfalso; apply hc; left; omega

theorem isUpC_lowerC (c : Char) : isUpC (lowerC c) = false := by
  unfold lowerC
  split
  · rename_i h
    simp only [isUpC, Bool.and_eq_true, decide_eq_true_eq] at h
    have hlt : c.toNat + 32 < 55296 := by omega
    simp only [isUpC, charOfNat_toNat _ hlt]
    simp only [Bool.and_eq_false_iff, decide_eq_false_iff_not]
    right; omega
  · rename_i h
    simpa using h

theorem lowerC_of_notUp (c : Char) (h : isUpC c = false) : lowerC c = c := by
  unfold lowerC
  simp [h]

theorem isUpC_replaceIDs (l : List Char) (h : ∀ c ∈ l, isUpC c = false) :
    ∀ c ∈ replaceIDs l, isUpC c = false := by
  induction l using replaceIDs.induct with
  | case1 rest ih =>
    intro c hc
    simp only [replaceIDs, List.mem_cons] at hc
    rcases hc with rfl | rfl | rfl | rfl | hc
    · decide
    · decide
    · decide
    · decide
    · exact ih (fun d hd => h d (by simp [hd])) c hc
  | case2 a rest hne ih =>
    intro c hc
    simp only [replaceIDs, List.mem_cons] at hc
    rcases hc with rfl | hc
    · exact h c (by simp)
    · exact ih (fun d hd => h d (by simp [hd])) c hc
  | case3 => intro c hc; simp [replaceIDs] at hc

theorem isUpC_pyLower (l : List Char) : ∀ c ∈ pyLower l, isUpC c = false := by
  intro c hc
  simp only [pyLower, List.mem_map] at hc
  obtain ⟨a, _, rfl⟩ := hc
  exact isUpC_lowerC a

theorem snakeSub_of_notUp (l : List Char) (h : ∀ c ∈ l, isUpC c = false) :
    snakeSub l = l := by
  induction l with
  | nil => rfl
  | cons c1 tl ih =>
    cases tl with
    | nil => rfl
    | cons c2 rest =>
      have h2 : isUpC c2 = false := h c2 (by simp)
      have h1 : isUpC c1 = false := h c1 (by simp)
      have hb : snakeBoundary c1 c2 rest = false := by
        simp [snakeBoundary, h1, h2]
      have := ih (fun d hd => h d (List.mem_cons_of_mem _ hd))
      simp only [snakeSub, hb]
      simp [this]

theorem pyLower_of_notUp (l : List Char) (h : ∀ c ∈ l, isUpC c = false) :
    pyLower l = l := by
  unfold pyLower
  induction l with
  | nil => rfl
  | cons c tl ih =>
    simp only [List.map_cons]
    rw [lowerC_of_notUp c (h c (by simp)), ih (fun d hd => h d (by simp [hd]))]

/-- Does the list start with the literal pattern `"_i_ds"`? (proof scaffolding) -/
def startsPat (l : List Char) : Bool := decide (l.take 5 = ['_', 'i', '_', 'd', 's'])

theorem startsPat_cons (c : Char) (x : List Char) :
    startsPat (c :: x) = true ↔ c = '_' ∧ x.take 4 = ['i', '_', 'd', 's'] := by
  simp [startsPat, List.take_succ_cons]

theorem take_four_shape (x : List Char) (h : x.take 4 = ['i', '_', 'd', 's']) :
    ∃ r, x = 'i' :: '_' :: 'd' :: 's' :: r := by
  cases x with
  | nil => simp at h
  | cons a x1 =>
    cases x1 with
    | nil => simp at h
    | cons b x2 =>
      cases x2 with
      | nil => simp at h
      | cons c x3 =>
        cases x3 with
        | nil => simp at h
        | cons d x4 =>
          simp only [List.take_succ_cons, List.take_zero, List.cons.injEq] at h
          obtain ⟨rfl, rfl, rfl, rfl, -⟩ := h
          exact ⟨x4, rfl⟩

theorem replaceIDs_cons_of_not_startsPat (c : Char) (rest : List Char)
    (h : startsPat (c :: rest) = false) : replaceIDs (c :: rest) = c :: replaceIDs rest := by
  conv_lhs => rw [replaceIDs.eq_def]
  split
  · rename_i heq
    exfalso
    rw [heq] at h
    simp [startsPat, List.take_succ_cons] at h
  · rename_i heq
    injection heq with h1 h2
    rw [h1, h2]
  · rename_i heq
    exact absurd heq (by simp)

theorem replaceIDs_take_one (l : List Char) (h : (replaceIDs l).take 1 = ['s']) :
    l.take 1 = ['s'] := by
  induction l using replaceIDs.induct with
  | case1 rest ih => simp [replaceIDs] at h
  | case2 c rest hne ih =>
    simp only [replaceIDs, List.take_succ_cons] at h ⊢
    simpa using h
  | case3 => simp [replaceIDs] at h

theorem replaceIDs_take_two (l : List Char) (h : (replaceIDs l).take 2 = ['d', 's']) :
    l.take 2 = ['d', 's'] := by
  induction l using replaceIDs.induct with
  | case1 rest ih => simp [replaceIDs, List.take_succ_cons] at h
  | case2 c rest hne ih =>
    simp only [replaceIDs, List.take_succ_cons, List.cons.injEq] at h ⊢
    exact ⟨h.1, replaceIDs_take_one rest h.2⟩
  | case3 => simp [replaceIDs] at h

theorem replaceIDs_take_three (l : List Char) (h : (replaceIDs l).take 3 = ['_', 'd', 's']) :
    l.take 3 = ['_', 'd', 's'] := by
  induction l using replaceIDs.induct with
  | case1 rest ih => simp [replaceIDs, List.take_succ_cons] at h
  | case2 c rest hne ih =>
    simp only [replaceIDs, List.take_succ_cons, List.cons.injEq] at h ⊢
    exact ⟨h.1, replaceIDs_take_two rest h.2⟩
  | case3 => simp [replaceIDs] at h

theorem replaceIDs_take_four (l : List Char) (h : (replaceIDs l).take 4 = ['i', '_', 'd', 's']) :
    l.take 4 = ['i', '_', 'd', 's'] := by
  induction l using replaceIDs.induct with
  | case1 rest ih => simp [replaceIDs, List.take_succ_cons] at h
  | case2 c rest hne ih =>
    simp only [replaceIDs, List.take_succ_cons, List.cons.injEq] at h ⊢
    exact ⟨h.1, replaceIDs_take_three rest h.2⟩
  | case3 => simp [replaceIDs] at h

theorem replaceIDs_idem (l : List Char) : replaceIDs (replaceIDs l) = replaceIDs l := by
  induction l using replaceIDs.induct with
  | case1 rest ih =>
    rw [show replaceIDs ('_' :: 'i' :: '_' :: 'd' :: 's' :: rest)
        = '_' :: 'i' :: 'd' :: 's' :: replaceIDs rest from rfl]
    have h0 : startsPat ('_' :: 'i' :: 'd' :: 's' :: replaceIDs rest) = false := by
      simp [startsPat, List.take_succ_cons]
    have h1 : startsPat ('i' :: 'd' :: 's' :: replaceIDs rest) = false := by
      simp [startsPat, List.take_succ_cons]
    have h2 : startsPat ('d' :: 's' :: replaceIDs rest) = false := by
      simp [startsPat, List.take_succ_cons]
    have h3 : startsPat ('s' :: replaceIDs rest) = false := by
      simp [startsPat, List.take_succ_cons]
    rw [replaceIDs_cons_of_not_startsPat _ _ h0, replaceIDs_cons_of_not_startsPat _ _ h1,
      replaceIDs_cons_of_not_startsPat _ _ h2, replaceIDs_cons_of_not_startsPat _ _ h3, ih]
  | case2 c rest hne ih =>
    have hstart : startsPat (c :: rest) = false := by
      by_contra hc
      rw [Bool.not_eq_false] at hc
      obtain ⟨rfl, h4⟩ := (startsPat_cons _ _).mp hc
      obtain ⟨r, rfl⟩ := take_four_shape rest h4
      exact hne r rfl rfl
    rw [replaceIDs_cons_of_not_startsPat _ _ hstart]
    have hstart2 : startsPat (c :: replaceIDs rest) = false := by
      by_contra hc
      rw [Bool.not_eq_false] at hc
      obtain ⟨rfl, h4⟩ := (startsPat_cons _ _).mp hc
      have h4' := replaceIDs_take_four rest h4
      obtain ⟨r, rfl⟩ := take_four_shape rest h4'
      exact hne r rfl rfl
    rw [replaceIDs_cons_of_not_startsPat _ _ hstart2, ih]
  | case3 => rfl

/-- C8: the field-name canonicalization is idempotent. -/
theorem to_snake_case_idem (l : List Char) :
    to_snake_case (to_snake_case l) = to_snake_case l := by
  unfold to_snake_case
  set y := replaceIDs (pyLower (snakeSub l)) with hy
  have hnoUp : ∀ c ∈ y, isUpC c = false :=
    isUpC_replaceIDs _ (isUpC_pyLower _)
  rw [snakeSub_of_notUp y hnoUp, pyLower_of_notUp y hnoUp, hy, replaceIDs_idem]

/-- Witness for C8 at the spec's canonicalization example. -/
theorem to_snake_case_idem_witness :
    to_snake_case (to_snake_case ("SortingStyleIDs".data))
      = to_snake_case ("SortingStyleIDs".data) :=
  to_snake_case_idem _

/-! ### Python value model

`PyVal` covers every value that flows through this service: JSON wire
values (strings, integers, booleans, null, objects, arrays) and the values
the unmarshaller itself produces (`datetime` instances as microseconds
since the Unix epoch in UTC, `SortingStyleEnum` members, and the 1-tuple
that the `sorting_style` branch builds). A Python `dict` is `PyEntries`,
an insertion-ordered association list with distinct keys.
-/

/-- The `SortingStyleEnum` members (reminders.py lines 185-192). -/
inductive SortingStyleEnum where
  | MANUAL
  | DISPLAY_DATE_ASCENDING
  | DISPLAY_DATE_DESCENDING
  | TITLE_ASCENDING
  | TITLE_DESCENDING
deriving DecidableEq

mutual
inductive PyVal where
  | str (s : String)
  | int (n : Int)
  | bool (b : Bool)
  | none
  | dt (usec : Int)
  | enumV (e : SortingStyleEnum)
  | tup1 (v : PyVal)
  | dict (entries : PyEntries)
  | arr (xs : PyList)
deriving DecidableEq
inductive PyEntries where
  | nil
  | cons (k : String) (v : PyVal) (rest : PyEntries)
deriving DecidableEq
inductive PyList where
  | nil
  | cons (v : PyVal) (rest : PyList)
deriving DecidableEq
end

/-- Python exceptions raised by this module. Dynamic parts of exception
messages (`repr` of the offending fragment) are not modelled; each
constructor carries at most a static tag or the offending key. -/
inductive Err where
  | keyError (k : String)
  | valueError (m : String)
  | typeError
  | attributeError
  | assertionError
  | apiResponse (m : String)
  | serviceNotActivated
deriving DecidableEq

def lookupE : PyEntries → String → Option PyVal
  | .nil, _ => Option.none
  | .cons k v rest, key => if k = key then some v else lookupE rest key

def memE (es : PyEntries) (k : String) : Bool := (lookupE es k).isSome

/-- Python `d[k] = v`: overwrite in place, or append a new key. -/
def insertE : PyEntries → String → PyVal → PyEntries
  | .nil, k, v => .cons k v .nil
  | .cons k' v' rest, k, v =>
    if k' = k then .cons k v rest else .cons k' v' (insertE rest k v)

/-- Removal part of Python `del d[k]` / `d.pop(k)`. -/
def removeE : PyEntries → String → PyEntries
  | .nil, _ => .nil
  | .cons k' v' rest, k => if k' = k then rest else .cons k' v' (removeE rest k)

def isEmptyE : PyEntries → Bool
  | .nil => true
  | .cons _ _ _ => false

/-- Python `d[k]` on a dict: the value, or `KeyError`. -/
def getItemE (es : PyEntries) (k : String) : Except Err PyVal :=
  match lookupE es k with
  | some v => .ok v
  | Option.none => .error (.keyError k)

/-- Python `d.pop(k)`: the value and the shrunk dict, or `KeyError`. -/
def popE (es : PyEntries) (k : String) : Except Err (PyVal × PyEntries) :=
  match lookupE es k with
  | some v => .ok (v, removeE es k)
  | Option.none => .error (.keyError k)

/-- Python `del d[k]`. -/
def delE (es : PyEntries) (k : String) : Except Err PyEntries :=
  match lookupE es k with
  | some _ => .ok (removeE es k)
  | Option.none => .error (.keyError k)

/-- Python subscript `v[k]` on an arbitrary value: `TypeError` unless `v`
is a dict. -/
def pyGetItem (v : PyVal) (k : String) : Except Err PyVal :=
  match v with
  | .dict es => getItemE es k
  | _ => .error .typeError

/-! ### Timestamp conversion helpers (reminders.py lines 44-55)

`datetime.fromtimestamp(_, timezone.utc)` succeeds exactly when the
resulting instant lies in year 1..9999; outside that range it raises
`ValueError`, which the helpers catch and turn into `None`. The model
represents a `datetime` as microseconds since the Unix epoch; the bounds
below are `datetime.min`/`datetime.max` as epoch-microseconds. Booleans
are `int` subclasses in Python and convert like 0/1. Non-numeric input
raises `TypeError`, which the source does not catch. (Platform
`OverflowError` for astronomically large inputs is not modelled; no input
treated here reaches it.) -/

def DT_MIN_US : Int := -62135596800000000

def DT_MAX_US : Int := 253402300799999999

/-- Model of `timestamp_milliseconds_to_datetime` under its `try/except ValueError`. -/
def timestamp_milliseconds_to_datetime (v : PyVal) : Except Err (Option Int) :=
  match v with
  | .int n =>
    if DT_MIN_US ≤ n * 1000 ∧ n * 1000 ≤ DT_MAX_US then .ok (some (n * 1000))
    else .ok Option.none
  | .bool b => .ok (some (if b then 1000 else 0))
  | _ => .error .typeError

/-- Model of `timestamp_seconds_to_datetime` under its `try/except ValueError`. -/
def timestamp_seconds_to_datetime (v : PyVal) : Except Err (Option Int) :=
  match v with
  | .int n =>
    if DT_MIN_US ≤ n * 1000000 ∧ n * 1000000 ≤ DT_MAX_US then .ok (some (n * 1000000))
    else .ok Option.none
  | .bool b => .ok (some (if b then 1000000 else 0))
  | _ => .error .typeError

/-! ### Activity envelope parser (`unmarshall_activity`, reminders.py lines 57-90) -/

/-- The `result` dict of `unmarshall_activity`: keys `timestamp`,
`user_id`, `device_id`. -/
structure ActivityResult where
  timestamp : PyVal
  user_id : PyVal
  device_id : PyVal
deriving DecidableEq

def allAbsentActivity : ActivityResult := ⟨.none, .none, .none⟩

def unmarshall_activity (data : PyVal) : Except Err ActivityResult :=
  match data with
  | .bool b =>
    -- `isinstance(data, bool)`: True is an AssertionError, False falls
    -- through to `if not data` and returns the all-absent result.
    if b then .error .assertionError else .ok allAbsentActivity
  | .dict es =>
    if isEmptyE es then .ok allAbsentActivity
    else
      match lookupE es "timestamp" with
      | Option.none => .error (.valueError "missing timestamp")
      | some tv =>
        match timestamp_milliseconds_to_datetime tv with
        | .error e => .error e
        | .ok Option.none => .error (.valueError "invalid timestamp")
        | .ok (some us) =>
          .ok ⟨.dt us, (lookupE es "userRecordName").getD .none,
            (lookupE es "deviceID").getD .none⟩
  | _ => .error (.valueError "invalid activity data")

/-- C4: the activity envelope parser returns the all-absent info for the
boolean `false`, a parsed timestamp with absent actor fields for
`{"timestamp": 1700000000000}`, and fails fast on the boolean `true`. -/
theorem unmarshall_activity_cases :
    unmarshall_activity (.bool false) = .ok allAbsentActivity ∧
    unmarshall_activity (.dict (.cons "timestamp" (.int 1700000000000) .nil))
      = .ok ⟨.dt 1700000000000000, .none, .none⟩ ∧
    unmarshall_activity (.bool true) = .error .assertionError := by
  refine ⟨rfl, ?_, rfl⟩
  rfl

/-- C5 counterexample: the empty dict is a mapping without a `timestamp`
key, yet `unmarshall_activity` returns the all-absent result instead of
raising (the `if not data` shortcut treats it like the boolean `false`). -/
theorem unmarshall_activity_empty_dict :
    lookupE PyEntries.nil "timestamp" = Option.none ∧
    unmarshall_activity (.dict .nil) = .ok allAbsentActivity :=
  ⟨rfl, rfl⟩

/-- C5 amended: every NON-empty mapping lacking a `timestamp` key is an
unmarshalling fault (`ValueError`); the empty mapping alone short-circuits
to the all-absent result. -/
theorem unmarshall_activity_missing_timestamp (es : PyEntries)
    (hne : isEmptyE es = false) (hts : lookupE es "timestamp" = Option.none) :
    unmarshall_activity (.dict es) = .error (.valueError "missing timestamp") := by
  simp only [unmarshall_activity, hne, hts, Bool.false_eq_true, if_false]

/-- Witness for the C5 amended theorem at a concrete non-empty mapping. -/
theorem unmarshall_activity_missing_timestamp_witness :
    unmarshall_activity (.dict (.cons "userRecordName" (.str "u") .nil))
      = .error (.valueError "missing timestamp") :=
  unmarshall_activity_missing_timestamp _ rfl rfl

/-! ### Record unmarshaller (`unmarshall`, reminders.py lines 41-182)

Diagnostics emitted through `_LOGGER.warning` are modelled as an explicit
list of `Warning` values accumulated alongside the result. The
`json.loads` collaborator is passed in as `jd : String → Option PyVal`
(`Option.none` models `json.JSONDecodeError`).
-/

inductive Warning where
  | unknownFieldType (ftype : PyVal) (fieldName : String) (recordId : PyVal)
  | jsonParseFailed (fieldName : String) (value : PyVal) (recordId : PyVal)
  | missingName (recordId : PyVal)
  | complexField (key : String) (recordId : PyVal)
deriving DecidableEq

/-- Model of `SortingStyleEnum.from_string` (reminders.py lines 194-208). The
Python argument can be any value; `==` against a string only succeeds for
equal strings. -/
def SortingStyleEnum.from_string (v : PyVal) : Except Err SortingStyleEnum :=
  if v = .str "manual" then .ok .MANUAL
  else if v = .str "displayDate_asc" then .ok .DISPLAY_DATE_ASCENDING
  else if v = .str "displayDate_desc" then .ok .DISPLAY_DATE_DESCENDING
  else if v = .str "title_asc" then .ok .TITLE_ASCENDING
  else if v = .str "title_desc" then .ok .TITLE_DESCENDING
  else .error (.valueError "unknown sorting style")

/-- Python truthiness (`bool(x)` / `if not x`). -/
def pyTruthy : PyVal → Bool
  | .str s => !(s = "")
  | .int n => !(n = 0)
  | .bool b => b
  | .none => false
  | .dt _ => true
  | .enumV _ => true
  | .tup1 _ => true
  | .dict es => !(isEmptyE es)
  | .arr PyList.nil => false
  | .arr (PyList.cons _ _) => true

/-- Python `x == 1` (True compares equal to 1). -/
def pyEqOne : PyVal → Bool
  | .int n => n = 1
  | .bool b => b
  | _ => false

/-- Python `int(x)`: parses integers from strings (`ValueError` on
failure), passes ints through, converts booleans; anything else is a
`TypeError`. -/
def pyInt : PyVal → Except Err Int
  | .str s =>
    match s.toInt? with
    | some n => .ok n
    | Option.none => .error (.valueError "invalid literal for int")
  | .int n => .ok n
  | .bool b => .ok (if b then 1 else 0)
  | _ => .error .typeError

/-- Python `isinstance(x, str) or isinstance(x, int) or isinstance(x, bool)`. -/
def pyIsPrimitive : PyVal → Bool
  | .str _ => true
  | .int _ => true
  | .bool _ => true
  | _ => false

/-- The wire-type dispatch of the fields loop (reminders.py lines
108-127): STRING/ASSETID pass the inner value through, INT64 parses an
int, BOOLEAN takes truthiness, TIMESTAMP converts epoch-milliseconds, and
any other tag logs a diagnostic and stores the raw envelope unchanged. -/
def coerceField (recordId : PyVal) (field_name : String) (field_value : PyVal) :
    Except Err (PyVal × List Warning) := do
  let t ← pyGetItem field_value "type"
  if t = .str "STRING" then
    let v ← pyGetItem field_value "value"
    pure (v, [])
  else if t = .str "INT64" then
    let v ← pyGetItem field_value "value"
    let n ← pyInt v
    pure (.int n, [])
  else if t = .str "BOOLEAN" then
    let v ← pyGetItem field_value "value"
    pure (.bool (pyTruthy v), [])
  else if t = .str "TIMESTAMP" then
    let v ← pyGetItem field_value "value"
    let r ← timestamp_milliseconds_to_datetime v
    pure ((r.map PyVal.dt).getD .none, [])
  else if t = .str "ASSETID" then
    let v ← pyGetItem field_value "value"
    pure (v, [])
  else
    pure (field_value, [.unknownFieldType t field_name recordId])

/-- The field-specific post-processing chain (reminders.py lines
129-154): embedded-JSON parse for `color`/`reminder_ids`/
`resolution_token_map` (reading the RAW envelope value), 0/1→boolean for
the boolean-like set (comparing the coerced value to 1), and the
`sorting_style` branch, which looks the SNAKE-CASED name up in the RAW
wire fields (falling back to `"manual"`) and wraps the parsed enum in a
1-tuple (note the trailing comma in the source). -/
def postProcessField (jd : String → Option PyVal) (recordId : PyVal)
    (rawFields : PyEntries) (field_name : String) (field_value : PyVal)
    (coerced : PyVal) : Except Err (PyVal × List Warning) :=
  if field_name = "color" ∨ field_name = "reminder_ids" ∨
      field_name = "resolution_token_map" then do
    let v ← pyGetItem field_value "value"
    match v with
    | .str s =>
      match jd s with
      | some j => pure (j, [])
      | Option.none => pure (.dict .nil, [.jsonParseFailed field_name v recordId])
    | _ => .error .typeError
  else if field_name = "deleted" ∨ field_name = "imported" ∨ field_name = "is_group" ∨
      field_name = "is_linked_to_account" ∨
      field_name = "should_categorize_grocery_items" then
    pure (.bool (pyEqOne coerced), [])
  else if field_name = "sorting_style" then do
    let e ← SortingStyleEnum.from_string ((lookupE rawFields field_name).getD (.str "manual"))
    pure (.tup1 (.enumV e), [])
  else
    pure (coerced, [])

def processFieldsAux (jd : String → Option PyVal) (recordId : PyVal)
    (rawFields : PyEntries) :
    PyEntries → PyEntries → List Warning → Except Err (PyEntries × List Warning)
  | .nil, acc, ws => .ok (acc, ws)
  | .cons fname fval rest, acc, ws => do
    let fn := toSnakeStr fname
    let (cv, w1) ← coerceField recordId fn fval
    let (pv, w2) ← postProcessField jd recordId rawFields fn fval cv
    processFieldsAux jd recordId rawFields rest (insertE acc fn pv) (ws ++ w1 ++ w2)

/-- The missing-or-empty `name` default (reminders.py lines 156-161). -/
def applyNameDefault (recordId : PyVal) (fields : PyEntries) (ws : List Warning) :
    PyEntries × List Warning :=
  match lookupE fields "name" with
  | some v =>
    if pyTruthy v then (fields, ws)
    else (insertE fields "name" (.str "Unknown"), ws ++ [.missingName recordId])
  | Option.none => (insertE fields "name" (.str "Unknown"), ws ++ [.missingName recordId])

/-- One iteration of the top-level key loop of `unmarshall` (reminders.py
lines 93-180). -/
def processTopKey (jd : String → Option PyVal) (st : PyEntries × List Warning)
    (k : String) (v : PyVal) : Except Err (PyEntries × List Warning) :=
  let result := st.1
  let ws := st.2
  if k = "recordName" then .ok (insertE result "record_id" v, ws)
  else if k = "created" ∨ k = "deleted" ∨ k = "modified" then do
    let parsed ← unmarshall_activity v
    let r1 := insertE result (toSnakeStr k ++ "_date") parsed.timestamp
    let r2 := insertE r1 (toSnakeStr k ++ "_by_user") parsed.user_id
    let r3 := insertE r2 (toSnakeStr k ++ "_by_device") parsed.device_id
    pure (r3, ws)
  else if k = "expirationTime" then do
    let r ← timestamp_seconds_to_datetime v
    pure (insertE result "expiration_date" ((r.map PyVal.dt).getD .none), ws)
  else if k = "fields" then
    match v with
    | .dict fes => do
      let recId := (lookupE result "record_id").getD (.str "unknown")
      let (fields, fws) ← processFieldsAux jd recId fes fes .nil []
      let fr := applyNameDefault recId fields fws
      pure (insertE result "fields" (.dict fr.1), ws ++ fr.2)
    | _ => .error .attributeError
  else if k = "share" then .ok (insertE result (toSnakeStr k) v, ws)
  else if pyIsPrimitive v then .ok (insertE result (toSnakeStr k) v, ws)
  else
    .ok (insertE result (toSnakeStr k) v,
      ws ++ [.complexField k ((lookupE result "record_id").getD (.str "unknown"))])

def unmarshallAux (jd : String → Option PyVal) :
    PyEntries → PyEntries × List Warning → Except Err (PyEntries × List Warning)
  | .nil, st => .ok st
  | .cons k v rest, st => do
    let st' ← processTopKey jd st k v
    unmarshallAux jd rest st'

/-- Model of `unmarshall` (reminders.py lines 41-182): iterate the record's
top-level keys in order, producing the flat result dict and the
diagnostics emitted along the way. -/
def unmarshall (jd : String → Option PyVal) (data : PyEntries) :
    Except Err (PyEntries × List Warning) :=
  unmarshallAux jd data (.nil, [])

/-- A JSON decoder that always fails; the records below never reach the
embedded-JSON branch, so any decoder gives the same result. -/
def jdNone : String → Option PyVal := fun _ => Option.none

/-- A record carrying a wire field `SortingStyle` of type STRING with
value `"title_asc"`. -/
def sortingStyleRecord : PyEntries :=
  .cons "recordName" (.str "r1")
    (.cons "fields"
      (.dict (.cons "SortingStyle"
        (.dict (.cons "type" (.str "STRING")
          (.cons "value" (.str "title_asc") .nil))) .nil))
      .nil)

/-- The same record with no sorting field at all. -/
def noSortingRecord : PyEntries :=
  .cons "recordName" (.str "r1")
    (.cons "fields"
      (.dict (.cons "Name"
        (.dict (.cons "type" (.str "STRING")
          (.cons "value" (.str "L") .nil))) .nil))
      .nil)

/-- C3: the `sorting_style` branch does NOT produce the enum member for
the wire string. For a record whose `SortingStyle` field carries
`"title_asc"`, the unmarshalled `sorting_style` attribute is the 1-tuple
`(SortingStyleEnum.MANUAL,)` — the branch looks the snake-cased name up
in the RAW wire fields map (where the key is `"SortingStyle"`), falls
back to the default `"manual"`, and wraps the result in a tuple. And when
the sorting field is absent entirely, no `sorting_style` attribute is
produced at all (no MANUAL default). -/
theorem sorting_style_unmarshall_bug :
    unmarshall jdNone sortingStyleRecord =
      .ok (.cons "record_id" (.str "r1")
        (.cons "fields" (.dict (.cons "sorting_style" (.tup1 (.enumV .MANUAL))
          (.cons "name" (.str "Unknown") .nil))) .nil),
        [.missingName (.str "r1")]) ∧
    PyVal.tup1 (.enumV .MANUAL) ≠ PyVal.enumV .TITLE_ASCENDING ∧
    unmarshall jdNone noSortingRecord =
      .ok (.cons "record_id" (.str "r1")
        (.cons "fields" (.dict (.cons "name" (.str "L") .nil)) .nil), []) ∧
    lookupE (.cons "name" (.str "L") .nil) "sorting_style" = Option.none := by
  refine ⟨by rfl, by decide, by rfl, rfl⟩

/-- A record with a field whose wire type tag `ENCRYPTED` is not one of
the five known tags. -/
def unknownTagRecord : PyEntries :=
  .cons "recordName" (.str "r2")
    (.cons "fields"
      (.dict (.cons "Payload"
        (.dict (.cons "type" (.str "ENCRYPTED")
          (.cons "value" (.str "blob") .nil)))
        (.cons "Name"
          (.dict (.cons "type" (.str "STRING")
            (.cons "value" (.str "Stuff") .nil))) .nil)))
      .nil)

/-- C7: for any field whose declared wire type tag is none of STRING,
INT64, BOOLEAN, TIMESTAMP, ASSETID, the coercion step emits a diagnostic
(field name, record id, tag) and returns the raw envelope unchanged, and
unmarshalling a record containing such a field completes without
aborting, the raw envelope stored under the field's canonical name. -/
theorem unknown_tag_passthrough :
    (∀ (recordId : PyVal) (fn : String) (fv t : PyVal),
      pyGetItem fv "type" = .ok t →
      t ≠ .str "STRING" → t ≠ .str "INT64" → t ≠ .str "BOOLEAN" →
      t ≠ .str "TIMESTAMP" → t ≠ .str "ASSETID" →
      coerceField recordId fn fv = .ok (fv, [.unknownFieldType t fn recordId])) ∧
    unmarshall jdNone unknownTagRecord =
      .ok (.cons "record_id" (.str "r2")
        (.cons "fields" (.dict
          (.cons "payload"
            (.dict (.cons "type" (.str "ENCRYPTED")
              (.cons "value" (.str "blob") .nil)))
            (.cons "name" (.str "Stuff") .nil))) .nil),
        [.unknownFieldType (.str "ENCRYPTED") "payload" (.str "r2")]) := by
  constructor
  · intro recordId fn fv t h h1 h2 h3 h4 h5
    unfold coerceField
    rw [h]
    simp only [Except.bind, bind, if_neg h1, if_neg h2, if_neg h3, if_neg h4, if_neg h5]
    rfl
  · rfl

/-- Witness for the universally quantified part of C7 at a concrete
envelope with tag `ENCRYPTED`. -/
theorem unknown_tag_passthrough_witness :
    coerceField (.str "r2") "payload"
      (.dict (.cons "type" (.str "ENCRYPTED") (.cons "value" (.str "blob") .nil)))
      = .ok (.dict (.cons "type" (.str "ENCRYPTED") (.cons "value" (.str "blob") .nil)),
        [.unknownFieldType (.str "ENCRYPTED") "payload" (.str "r2")]) :=
  unknown_tag_passthrough.1 _ _ _ _ rfl (by decide) (by decide) (by decide)
    (by decide) (by decide)

/-! ### List materialization (`BaseRemindersList.from_record`, reminders.py lines 353-397)

The variant constructors bind the flattened attribute mapping as Python
keyword arguments: binding raises `TypeError` when a key is not a declared
parameter of the constructor chain or a parameter without a default is
missing. The models below record exactly that binding discipline; the
attribute assignments inside `__init__` cannot fail and carry no further
information for these claims. -/

inductive ListVariant where
  | standard
  | shared
  | enhanced
deriving DecidableEq

def keysE : PyEntries → List String
  | .nil => []
  | .cons k _ r => k :: keysE r

/-- Parameter names of `BaseRemindersList.__init__` (lines 272-315)
besides `self` and `service`; `StandardRemindersList.__init__` re-declares
`expiration_date`/`parent_list` and forwards the rest, so this is also the
accepted keyword set for `StandardRemindersList.from_data`. -/
def baseParamNames : List String :=
  ["list_id", "created_date", "created_by_user", "created_by_device",
   "modified_date", "modified_by_user", "modified_by_device",
   "deleted_date", "deleted_by_user", "deleted_by_device",
   "badge_emblem", "chain_private_key", "chain_protection_info", "color",
   "count", "deleted", "displayed_hostname", "expiration_date",
   "grocery_local_corrections_as_data", "grocery_local_corrections_checksum",
   "grocery_locale_id", "imported", "imported_date", "is_group",
   "is_linked_to_account", "list_name",
   "memberships_of_reminders_in_sections_as_data",
   "memberships_of_reminders_in_sections_checksum", "parent_list",
   "pinned_date", "plugin_fields", "record_change_tag",
   "reminder_ids_asset", "reminder_ids", "resolution_token_map",
   "section_ids_ordering_as_data", "share", "short_guid",
   "should_categorize_grocery_items", "sorting_style", "stable_url"]

/-- Parameters of the constructor chain without a default value
(`service` is supplied positionally by `from_data`). -/
def requiredParamNames : List String :=
  ["list_id", "created_date", "created_by_user", "created_by_device",
   "modified_date", "modified_by_user", "modified_by_device"]

def kwargsOk (allowed required : List String) (data : PyEntries) : Bool :=
  (keysE data).all (fun k => allowed.contains k) &&
    required.all (fun k => memE data k)

/-- Model of `StandardRemindersList.from_data` (lines 550-558): keyword binding. -/
def StandardRemindersList.from_data (data : PyEntries) : Except Err Unit :=
  if kwargsOk baseParamNames requiredParamNames data then .ok ()
  else .error .typeError

/-- Model of `SharedRemindersList.from_data` (lines 595-629): `share`,
`stable_url`, `short_guid` are parameters without defaults;
`should_auto_categorize_items` is popped from the remaining kwargs before
they are forwarded. -/
def SharedRemindersList.from_data (data : PyEntries) : Except Err Unit :=
  if kwargsOk (baseParamNames ++ ["should_auto_categorize_items"])
      (requiredParamNames ++ ["share", "stable_url", "short_guid"]) data then .ok ()
  else .error .typeError

/-- Model of `EnhancedRemindersList.from_data` (lines 806-814):
`should_auto_categorize_items` and `should_categorize_grocery_items` are
popped with defaults before forwarding. -/
def EnhancedRemindersList.from_data (data : PyEntries) : Except Err Unit :=
  if kwargsOk (baseParamNames ++ ["should_auto_categorize_items"])
      requiredParamNames data then .ok ()
  else .error .typeError

/-- The `record["recordType"] != "List"` guard (lines 359-362). -/
def checkRecordType (record : PyEntries) : Except Err Unit := do
  let rt ← getItemE record "recordType"
  if rt = .str "List" then .ok () else .error (.apiResponse "Record is not a List")

/-- Lines 359-368: the guard, `unmarshall`, and the `if not data` check. -/
def fr_unmarshal (jd : String → Option PyVal) (record : PyEntries) :
    Except Err PyEntries := do
  checkRecordType record
  let r ← unmarshall jd record
  if isEmptyE r.1 then .error (.apiResponse "Failed to unmarshall record")
  else pure r.1

/-- The field-merging loop (lines 373-378): a field name already present
in `data` (other than `name`) is a fatal `KeyError`; otherwise the field
is copied to the top level. -/
def mergeFields : PyEntries → PyEntries → Except Err PyEntries
  | data, .nil => .ok data
  | data, .cons fn fv rest =>
    if memE data fn && !(fn = "name") then .error (.keyError fn)
    else mergeFields (insertE data fn fv) rest

/-- Lines 370-380: promote `record_id`→`list_id`, pop the nested `name`
into `list_name`, delete `record_type`, merge the remaining fields into
the top level, then delete `fields` and `zone_id` (each `del` a KeyError
when the key is absent). -/
def fr_promote (data0 : PyEntries) : Except Err PyEntries := do
  let p ← popE data0 "record_id"
  let d2 := insertE p.2 "list_id" p.1
  let fvRaw ← getItemE d2 "fields"
  match fvRaw with
  | .dict fes => do
    let pn ← popE fes "name"
    let d3 := insertE d2 "fields" (.dict pn.2)
    let d4 := insertE d3 "list_name" pn.1
    let d5 ← delE d4 "record_type"
    let d6 ← mergeFields d5 pn.2
    let d7 ← delE d6 "fields"
    delE d7 "zone_id"
  | _ => .error .attributeError

/-- The discriminator dispatch (lines 388-393): `share` first, then
`should_categorize_grocery_items`, else the standard variant. -/
def from_record_dispatch (data : PyEntries) : Except Err (ListVariant × PyEntries) :=
  if memE data "share" then
    match SharedRemindersList.from_data data with
    | .ok _ => .ok (.shared, data)
    | .error e => .error e
  else if memE data "should_categorize_grocery_items" then
    match EnhancedRemindersList.from_data data with
    | .ok _ => .ok (.enhanced, data)
    | .error e => .error e
  else
    match StandardRemindersList.from_data data with
    | .ok _ => .ok (.standard, data)
    | .error e => .error e

/-- Model of `BaseRemindersList.from_record`, returning the selected variant and
the flattened attribute mapping handed to its constructor. -/
def from_record (jd : String → Option PyVal) (record : PyEntries) :
    Except Err (ListVariant × PyEntries) := do
  let data ← fr_unmarshal jd record
  let data ← fr_promote data
  from_record_dispatch data

/-- A STRING-typed wire field envelope. -/
def strField (s : String) : PyVal :=
  .dict (.cons "type" (.str "STRING") (.cons "value" (.str s) .nil))

/-- An INT64-typed wire field envelope. -/
def intField (n : Int) : PyVal :=
  .dict (.cons "type" (.str "INT64") (.cons "value" (.int n) .nil))

def createdEnvelope : PyVal :=
  .dict (.cons "timestamp" (.int 1700000000000)
    (.cons "userRecordName" (.str "u1") (.cons "deviceID" (.str "d1") .nil)))

def modifiedEnvelope : PyVal :=
  .dict (.cons "timestamp" (.int 1700000000001) .nil)

/-- A complete raw `List` record: no `share`, no grocery flag. -/
def stdListRecord : PyEntries :=
  .cons "recordType" (.str "List")
    (.cons "recordName" (.str "list-1")
      (.cons "zoneID" (.dict (.cons "zoneName" (.str "Reminders") .nil))
        (.cons "created" createdEnvelope
          (.cons "modified" modifiedEnvelope
            (.cons "fields"
              (.dict (.cons "Name" (strField "Groceries")
                (.cons "StableUrl" (strField "url-1")
                  (.cons "ShortGUID" (strField "sg-1") .nil))))
              .nil)))))

/-- The same record with a top-level `share` structure added. -/
def sharedListRecord : PyEntries :=
  .cons "recordType" (.str "List")
    (.cons "recordName" (.str "list-1")
      (.cons "zoneID" (.dict (.cons "zoneName" (.str "Reminders") .nil))
        (.cons "created" createdEnvelope
          (.cons "modified" modifiedEnvelope
            (.cons "fields"
              (.dict (.cons "Name" (strField "Groceries")
                (.cons "StableUrl" (strField "url-1")
                  (.cons "ShortGUID" (strField "sg-1") .nil))))
              (.cons "share" (.dict (.cons "x" (.int 1) .nil)) .nil))))))

/-- The base record with a `ShouldCategorizeGroceryItems` field and no
`share`. -/
def enhancedListRecord : PyEntries :=
  .cons "recordType" (.str "List")
    (.cons "recordName" (.str "list-1")
      (.cons "zoneID" (.dict (.cons "zoneName" (.str "Reminders") .nil))
        (.cons "created" createdEnvelope
          (.cons "modified" modifiedEnvelope
            (.cons "fields"
              (.dict (.cons "Name" (strField "Groceries")
                (.cons "StableUrl" (strField "url-1")
                  (.cons "ShortGUID" (strField "sg-1")
                    (.cons "ShouldCategorizeGroceryItems" (intField 1) .nil)))))
              .nil)))))

/-- The grocery-flagged record with `share` also present. -/
def sharedGroceryRecord : PyEntries :=
  .cons "recordType" (.str "List")
    (.cons "recordName" (.str "list-1")
      (.cons "zoneID" (.dict (.cons "zoneName" (.str "Reminders") .nil))
        (.cons "created" createdEnvelope
          (.cons "modified" modifiedEnvelope
            (.cons "fields"
              (.dict (.cons "Name" (strField "Groceries")
                (.cons "StableUrl" (strField "url-1")
                  (.cons "ShortGUID" (strField "sg-1")
                    (.cons "ShouldCategorizeGroceryItems" (intField 1) .nil)))))
              (.cons "share" (.dict (.cons "x" (.int 1) .nil)) .nil))))))

/-- The complete record with the `zoneID` top-level key removed. -/
def noZoneRecord : PyEntries :=
  .cons "recordType" (.str "List")
    (.cons "recordName" (.str "list-1")
      (.cons "created" createdEnvelope
        (.cons "modified" modifiedEnvelope
          (.cons "fields"
            (.dict (.cons "Name" (strField "Groceries") .nil))
            .nil))))

/-- The complete record with the `fields` map removed. -/
def noFieldsRecord : PyEntries :=
  .cons "recordType" (.str "List")
    (.cons "recordName" (.str "list-1")
      (.cons "zoneID" (.dict (.cons "zoneName" (.str "Reminders") .nil))
        (.cons "created" createdEnvelope
          (.cons "modified" modifiedEnvelope .nil))))

/-- A record with NO top-level `zoneID`, but whose field map contains a
wire field named `ZoneID` (which canonicalizes to `zone_id`). -/
def zoneFieldRecord : PyEntries :=
  .cons "recordType" (.str "List")
    (.cons "recordName" (.str "list-1")
      (.cons "created" createdEnvelope
        (.cons "modified" modifiedEnvelope
          (.cons "fields"
            (.dict (.cons "Name" (strField "Groceries")
              (.cons "ZoneID" (strField "z-1") .nil)))
            .nil))))

/-! #### Dict lemmas -/

/-- Structural induction for `PyEntries` (the mutual `PyVal` recursor has
multiple motives, so the `induction` tactic needs this dedicated
eliminator). -/
@[induction_eliminator]
theorem PyEntries.inductionOn {motive : PyEntries → Prop} (nil : motive .nil)
    (cons : ∀ k v rest, motive rest → motive (.cons k v rest)) :
    ∀ es, motive es
  | .nil => nil
  | .cons k v rest => cons k v rest (PyEntries.inductionOn nil cons rest)

theorem lookupE_cons (k : String) (v : PyVal) (rest : PyEntries) (x : String) :
    lookupE (.cons k v rest) x = if k = x then some v else lookupE rest x := rfl

theorem lookupE_insertE (m : PyEntries) (k : String) (v : PyVal) (x : String) :
    lookupE (insertE m k v) x = if k = x then some v else lookupE m x := by
  induction m with
  | nil => simp [insertE, lookupE]
  | cons k' v' rest ih =>
    by_cases hk : k' = k
    · rw [show insertE (.cons k' v' rest) k v = .cons k v rest from by
        simp [insertE, hk], lookupE_cons, lookupE_cons]
      by_cases hx : k = x
      · simp [hx]
      · have hk'x : ¬ k' = x := by rw [hk]; exact hx
        simp [hx, hk'x]
    · rw [show insertE (.cons k' v' rest) k v = .cons k' v' (insertE rest k v) from by
        simp [insertE, hk], lookupE_cons, ih, lookupE_cons]
      by_cases hx : k' = x
      · have hkx : ¬ k = x := fun hc => hk (by rw [hx, hc])
        simp [hx, hkx]
      · by_cases hkx : k = x <;> simp [hx, hkx]

theorem memE_insertE (m : PyEntries) (k : String) (v : PyVal) (x : String)
    (h : memE (insertE m k v) x = true) : x = k ∨ memE m x = true := by
  unfold memE at h ⊢
  rw [lookupE_insertE] at h
  by_cases hk : k = x
  · exact Or.inl hk.symm
  · rw [if_neg hk] at h
    exact Or.inr h

theorem lookupE_removeE_ne (m : PyEntries) (k x : String) (h : x ≠ k) :
    lookupE (removeE m k) x = lookupE m x := by
  induction m with
  | nil => rfl
  | cons k' v' rest ih =>
    by_cases h2 : k' = k
    · rw [show removeE (.cons k' v' rest) k = rest from by simp [removeE, h2],
        lookupE_cons]
      have : ¬ k' = x := by rw [h2]; exact fun hc => h hc.symm
      rw [if_neg this]
    · rw [show removeE (.cons k' v' rest) k = .cons k' v' (removeE rest k) from by
        simp [removeE, h2], lookupE_cons, lookupE_cons]
      by_cases h3 : k' = x <;> simp [h3, ih]

theorem memE_removeE (m : PyEntries) (k x : String)
    (h : memE (removeE m k) x = true) : memE m x = true := by
  induction m with
  | nil => simpa [removeE] using h
  | cons k' v' rest ih =>
    by_cases h2 : k' = k
    · rw [show removeE (.cons k' v' rest) k = rest from by simp [removeE, h2]] at h
      unfold memE at h ⊢
      rw [lookupE_cons]
      by_cases h3 : k' = x <;> simp [h3, h]
    · rw [show removeE (.cons k' v' rest) k = .cons k' v' (removeE rest k) from by
        simp [removeE, h2]] at h
      unfold memE at h ⊢
      rw [lookupE_cons] at h ⊢
      by_cases h3 : k' = x
      · simp [h3]
      · simp only [if_neg h3] at h ⊢
        exact ih h

theorem memE_mergeFields (fs : PyEntries) (base out : PyEntries) (x : String)
    (h : mergeFields base fs = .ok out) (hx : memE out x = true) :
    memE base x = true ∨ memE fs x = true := by
  induction fs generalizing base with
  | nil =>
    simp only [mergeFields] at h
    injection h with h
    subst h
    exact Or.inl hx
  | cons fn fv rest ih =>
    simp only [mergeFields] at h
    split at h
    · exact absurd h (by simp)
    · rcases ih (insertE base fn fv) h with hmem | hmem
      · rcases memE_insertE _ _ _ _ hmem with rfl | hb
        · right
          unfold memE
          simp [lookupE_cons]
        · exact Or.inl hb
      · right
        unfold memE at hmem ⊢
        rw [lookupE_cons]
        by_cases h3 : fn = x <;> simp [h3, hmem]

theorem getItemE_ok (m : PyEntries) (k : String) (v : PyVal)
    (h : getItemE m k = .ok v) : lookupE m k = some v := by
  unfold getItemE at h
  cases h2 : lookupE m k with
  | some w => rw [h2] at h; injection h with h; rw [h]
  | none => rw [h2] at h; exact absurd h (by simp)

theorem popE_ok (m : PyEntries) (k : String) (p : PyVal × PyEntries)
    (h : popE m k = .ok p) : lookupE m k = some p.1 ∧ p.2 = removeE m k := by
  unfold popE at h
  cases h2 : lookupE m k with
  | some w => rw [h2] at h; injection h with h; rw [← h]; exact ⟨rfl, rfl⟩
  | none => rw [h2] at h; exact absurd h (by simp)

theorem delE_ok (m : PyEntries) (k : String) (d : PyEntries)
    (h : delE m k = .ok d) : memE m k = true ∧ d = removeE m k := by
  unfold delE at h
  cases h2 : lookupE m k with
  | some w =>
    rw [h2] at h
    injection h with h
    exact ⟨by simp [memE, h2], h.symm⟩
  | none => rw [h2] at h; exact absurd h (by simp)

/-! #### The C6 and C10 theorems -/

theorem from_record_dispatch_ok (data : PyEntries) (v : ListVariant) (d : PyEntries)
    (h : from_record_dispatch data = .ok (v, d)) :
    d = data ∧
      v = (if memE data "share" then ListVariant.shared
        else if memE data "should_categorize_grocery_items" then ListVariant.enhanced
        else ListVariant.standard) := by
  unfold from_record_dispatch at h
  split_ifs at h with hs hg
  · cases hfd : SharedRemindersList.from_data data with
    | ok u =>
      rw [hfd] at h; injection h with h; injection h with h1 h2
      subst h1; subst h2
      simp [hs]
    | error e => rw [hfd] at h; exact absurd h (by simp)
  · cases hfd : EnhancedRemindersList.from_data data with
    | ok u =>
      rw [hfd] at h; injection h with h; injection h with h1 h2
      subst h1; subst h2
      simp [hs, hg]
    | error e => rw [hfd] at h; exact absurd h (by simp)
  · cases hfd : StandardRemindersList.from_data data with
    | ok u =>
      rw [hfd] at h; injection h with h; injection h with h1 h2
      subst h1; subst h2
      simp [hs, hg]
    | error e => rw [hfd] at h; exact absurd h (by simp)

theorem from_record_ok_elim (jd : String → Option PyVal) (record : PyEntries)
    (v : ListVariant) (d : PyEntries)
    (h : from_record jd record = .ok (v, d)) :
    ∃ data1 data2, fr_unmarshal jd record = .ok data1 ∧
      fr_promote data1 = .ok data2 ∧ from_record_dispatch data2 = .ok (v, d) := by
  unfold from_record at h
  cases h1 : fr_unmarshal jd record with
  | error e => rw [h1] at h; exact absurd h (by simp [Bind.bind, Except.bind])
  | ok data1 =>
    rw [h1] at h
    simp only [Bind.bind, Except.bind] at h
    cases h2 : fr_promote data1 with
    | error e => rw [h2] at h; exact absurd h (by simp)
    | ok data2 =>
      rw [h2] at h
      exact ⟨data1, data2, rfl, h2, h⟩

/-- C6: for every record `from_record` accepts, the variant returned
follows the discriminator precedence on the flattened attribute mapping:
`share` present → Shared; otherwise `should_categorize_grocery_items`
present → Enhanced; otherwise Standard. Concretely, a complete `List`
record with neither discriminator materializes as Standard; adding a
`share` structure yields Shared (with or without the grocery flag); the
grocery flag without `share` yields Enhanced. -/
theorem from_record_variant_precedence :
    (∀ (jd : String → Option PyVal) (record : PyEntries) (v : ListVariant) (d : PyEntries),
      from_record jd record = .ok (v, d) →
      v = (if memE d "share" then ListVariant.shared
        else if memE d "should_categorize_grocery_items" then ListVariant.enhanced
        else ListVariant.standard)) ∧
    (from_record jdNone stdListRecord).map Prod.fst = .ok ListVariant.standard ∧
    (from_record jdNone sharedListRecord).map Prod.fst = .ok ListVariant.shared ∧
    (from_record jdNone enhancedListRecord).map Prod.fst = .ok ListVariant.enhanced ∧
    (from_record jdNone sharedGroceryRecord).map Prod.fst = .ok ListVariant.shared := by
  refine ⟨?_, by rfl, by rfl, by rfl, by rfl⟩
  intro jd record v d h
  obtain ⟨data1, data2, -, -, hd⟩ := from_record_ok_elim jd record v d h
  obtain ⟨rfl, hv⟩ := from_record_dispatch_ok data2 v d hd
  exact hv

/-- The flattened attribute mapping `from_record` hands to the Shared
constructor for `sharedListRecord`. -/
def sharedFlattened : PyEntries :=
  .cons "created_date" (.dt 1700000000000000)
    (.cons "created_by_user" (.str "u1")
      (.cons "created_by_device" (.str "d1")
        (.cons "modified_date" (.dt 1700000000001000)
          (.cons "modified_by_user" .none
            (.cons "modified_by_device" .none
              (.cons "share" (.dict (.cons "x" (.int 1) .nil))
                (.cons "list_id" (.str "list-1")
                  (.cons "list_name" (.str "Groceries")
                    (.cons "stable_url" (.str "url-1")
                      (.cons "short_guid" (.str "sg-1") .nil))))))))))

/-- Witness for the universally quantified part of C6 at the concrete
shared record. -/
theorem from_record_variant_precedence_witness :
    ListVariant.shared
      = (if memE sharedFlattened "share" then ListVariant.shared
        else if memE sharedFlattened "should_categorize_grocery_items" then ListVariant.enhanced
        else ListVariant.standard) :=
  from_record_variant_precedence.1 jdNone sharedListRecord ListVariant.shared
    sharedFlattened rfl

theorem bindE_ok {α β : Type} {x : Except Err α} {f : α → Except Err β} {b : β}
    (h : (x >>= f) = .ok b) : ∃ a, x = .ok a ∧ f a = .ok b := by
  cases x with
  | error e => exact absurd h (by simp [Bind.bind, Except.bind])
  | ok a => exact ⟨a, rfl, h⟩

theorem fr_unmarshal_ok (jd : String → Option PyVal) (record : PyEntries)
    (d1 : PyEntries) (h : fr_unmarshal jd record = .ok d1) :
    ∃ ws, unmarshall jd record = .ok (d1, ws) := by
  unfold fr_unmarshal at h
  obtain ⟨u, hc, h⟩ := bindE_ok h
  obtain ⟨r, hu, h⟩ := bindE_ok h
  obtain ⟨rd, rw2⟩ := r
  by_cases he : isEmptyE rd = true
  · rw [if_pos he] at h
    exact absurd h (by simp)
  · rw [if_neg he] at h
    simp only [pure, Except.pure] at h
    injection h with h
    exact ⟨rw2, by rw [hu, h]⟩

/-- C10 counterexample: a record with NO `zoneID` top-level key for which
`from_record` nevertheless produces a (standard) list — a wire field named
`ZoneID` canonicalizes to `zone_id` and feeds the later `del`. -/
theorem from_record_no_zoneID_still_ok :
    lookupE zoneFieldRecord "zoneID" = Option.none ∧
    (from_record jdNone zoneFieldRecord).map Prod.fst = .ok ListVariant.standard :=
  ⟨rfl, rfl⟩

/-- C10 amended: `from_record` deletes the unmarshalled `record_type`,
`fields` and `zone_id` entries unconditionally, so it can only succeed
when the unmarshalled data has a `record_type` entry, a dict-valued
`fields` entry, and a `zone_id` entry either at top level or among the
field names; concretely, the complete record with `zoneID` removed (and no
field canonicalizing to `zone_id`) fails with `KeyError` on `zone_id`, and
with `fields` removed it fails with `KeyError` on `fields`. -/
theorem from_record_requires_zone_and_fields :
    (∀ (jd : String → Option PyVal) (record : PyEntries) (v : ListVariant)
        (d data : PyEntries) (ws : List Warning),
      from_record jd record = .ok (v, d) →
      unmarshall jd record = .ok (data, ws) →
      memE data "record_type" = true ∧
      ∃ fes, lookupE data "fields" = some (.dict fes) ∧
        (memE data "zone_id" = true ∨ memE fes "zone_id" = true)) ∧
    from_record jdNone noZoneRecord = .error (.keyError "zone_id") ∧
    from_record jdNone noFieldsRecord = .error (.keyError "fields") := by
  refine ⟨?_, by rfl, by rfl⟩
  intro jd record v d data ws hok hun
  obtain ⟨data1, data2, h1, h2, -⟩ := from_record_ok_elim jd record v d hok
  obtain ⟨ws', hu'⟩ := fr_unmarshal_ok jd record data1 h1
  rw [hun] at hu'
  injection hu' with hu'
  injection hu' with hdd hww
  subst hdd
  unfold fr_promote at h2
  obtain ⟨p, hp1, h2⟩ := bindE_ok h2
  obtain ⟨fv, hg, h2⟩ := bindE_ok h2
  obtain ⟨-, hp2eq⟩ := popE_ok _ _ _ hp1
  cases fv with
  | dict fes =>
    obtain ⟨pn, hn, h2⟩ := bindE_ok h2
    obtain ⟨d5, hrt, h2⟩ := bindE_ok h2
    obtain ⟨d6, hm, h2⟩ := bindE_ok h2
    obtain ⟨d7, hf, h2⟩ := bindE_ok h2
    -- h2 : delE d7 "zone_id" = .ok data2
    constructor
    · -- record_type came through from the unmarshalled data
      obtain ⟨hmem4, -⟩ := delE_ok _ _ _ hrt
      rcases memE_insertE _ _ _ _ hmem4 with heq | hmem3
      · exact absurd heq (by decide)
      rcases memE_insertE _ _ _ _ hmem3 with heq | hmem2
      · exact absurd heq (by decide)
      rcases memE_insertE _ _ _ _ hmem2 with heq | hmemp2
      · exact absurd heq (by decide)
      rw [hp2eq] at hmemp2
      exact memE_removeE _ _ _ hmemp2
    · refine ⟨fes, ?_, ?_⟩
      · have hl2 := getItemE_ok _ _ _ hg
        rw [lookupE_insertE, if_neg (by decide)] at hl2
        rw [hp2eq, lookupE_removeE_ne _ _ _ (by decide)] at hl2
        exact hl2
      · obtain ⟨hmem7z, -⟩ := delE_ok _ _ _ h2
        obtain ⟨-, hd7⟩ := delE_ok _ _ _ hf
        rw [hd7] at hmem7z
        have hmem6 := memE_removeE _ _ _ hmem7z
        rcases memE_mergeFields _ _ _ _ hm hmem6 with hmem5 | hmemfes
        · obtain ⟨-, hd5⟩ := delE_ok _ _ _ hrt
          rw [hd5] at hmem5
          have hmem4z := memE_removeE _ _ _ hmem5
          rcases memE_insertE _ _ _ _ hmem4z with heq | hmem3z
          · exact absurd heq (by decide)
          rcases memE_insertE _ _ _ _ hmem3z with heq | hmem2z
          · exact absurd heq (by decide)
          rcases memE_insertE _ _ _ _ hmem2z with heq | hmempz
          · exact absurd heq (by decide)
          rw [hp2eq] at hmempz
          exact Or.inl (memE_removeE _ _ _ hmempz)
        · obtain ⟨-, hpn2⟩ := popE_ok _ _ _ hn
          rw [hpn2] at hmemfes
          exact Or.inr (memE_removeE _ _ _ hmemfes)
  | str s => exact absurd h2 (by simp)
  | int n => exact absurd h2 (by simp)
  | bool b => exact absurd h2 (by simp)
  | none => exact absurd h2 (by simp)
  | dt u => exact absurd h2 (by simp)
  | enumV e => exact absurd h2 (by simp)
  | tup1 w => exact absurd h2 (by simp)
  | arr xs => exact absurd h2 (by simp)

/-- The unmarshalled data of `zoneFieldRecord`. -/
def zoneFieldData : PyEntries :=
  .cons "record_type" (.str "List")
    (.cons "record_id" (.str "list-1")
      (.cons "created_date" (.dt 1700000000000000)
        (.cons "created_by_user" (.str "u1")
          (.cons "created_by_device" (.str "d1")
            (.cons "modified_date" (.dt 1700000000001000)
              (.cons "modified_by_user" .none
                (.cons "modified_by_device" .none
                  (.cons "fields"
                    (.dict (.cons "name" (.str "Groceries")
                      (.cons "zone_id" (.str "z-1") .nil)))
                    .nil))))))))

/-- The flattened mapping `from_record` produces for `zoneFieldRecord`. -/
def zoneFieldFlattened : PyEntries :=
  .cons "created_date" (.dt 1700000000000000)
    (.cons "created_by_user" (.str "u1")
      (.cons "created_by_device" (.str "d1")
        (.cons "modified_date" (.dt 1700000000001000)
          (.cons "modified_by_user" .none
            (.cons "modified_by_device" .none
              (.cons "list_id" (.str "list-1")
                (.cons "list_name" (.str "Groceries") .nil)))))))

/-- Witness for the universally quantified part of the C10 amended
theorem at `zoneFieldRecord`. -/
theorem from_record_requires_zone_and_fields_witness :
    memE zoneFieldData "record_type" = true ∧
    ∃ fes, lookupE zoneFieldData "fields" = some (.dict fes) ∧
      (memE zoneFieldData "zone_id" = true ∨ memE fes "zone_id" = true) :=
  from_record_requires_zone_and_fields.1 jdNone zoneFieldRecord ListVariant.standard
    zoneFieldFlattened zoneFieldData [] rfl rfl

/-! ### Cursor-driven pagination
(`_fetch_reminders` lines 449-465, `_fetch_lists` lines 884-900)

Both fetchers run the identical loop:
```
while ("continuationMarker" not in query or query["continuationMarker"] is not None):
    response = ... post(query) ...
    records.extend(response["records"])
    query["continuationMarker"] = response.get("continuationMarker", None)
```
The transport is modelled as a script of `Page`s consumed in order, one
per POST. A page's `continuationMarker` is `Option.none` when the key is
absent from the response, `some Option.none` when present and null, and
`some (some t)` for a token. The loop state is the query's marker slot:
`Option.none` while the key is not yet in the query, `some v` afterwards.
`runFetch` returns the accumulated records together with the number of
requests issued, or `Option.none` when the loop demands another request
after the script is exhausted. -/

structure Page where
  records : List PyVal
  continuationMarker : Option (Option String)
deriving DecidableEq

/-- Python `response.get("continuationMarker", None)`. -/
def markerGet : Option (Option String) → Option String
  | Option.none => Option.none
  | some m => m

/-- The `while` condition. -/
def loopContinues : Option (Option String) → Bool
  | Option.none => true
  | some Option.none => false
  | some (some _) => true

def runFetch : List Page → Option (Option String) → Option (List PyVal × Nat)
  | [], qm => if loopContinues qm then Option.none else some ([], 0)
  | r :: rest, qm =>
    if loopContinues qm then
      match runFetch rest (some (markerGet r.continuationMarker)) with
      | some p => some (r.records ++ p.1, p.2 + 1)
      | Option.none => Option.none
    else some ([], 0)

/-- A whole fetch: the freshly-built query has no `continuationMarker`. -/
def fetch_records (resps : List Page) : Option (List PyVal × Nat) :=
  runFetch resps Option.none

def pageA : Page := ⟨[.str "r1"], Option.none⟩

def pageB : Page := ⟨[.str "r2"], some (some "tok1")⟩

def pageC : Page := ⟨[.str "r3"], some Option.none⟩

/-- C1 counterexample: for the marker script (absent, "tok1", null) the
loop stops after the FIRST response — the absent marker is stored as
`None` in the query, which terminates the `while` — so exactly one
request is issued and only the first response's records are returned,
not three requests with all records concatenated. -/
theorem pagination_absent_marker_stops :
    fetch_records [pageA, pageB, pageC] = some ([.str "r1"], 1) ∧
    some ([PyVal.str "r1"], 1)
      ≠ some ([PyVal.str "r1", PyVal.str "r2", PyVal.str "r3"], 3) :=
  ⟨rfl, by decide⟩

/-- C1 amended: whenever the loop issues a request (the query marker slot
is absent or holds a token), a response whose marker is absent or null
terminates the loop after appending that response's records — one request
for that response — while a response with a non-null token merges the
token into the query and the loop continues. -/
theorem runFetch_stop (rest : List Page) :
    runFetch rest (some Option.none) = some ([], 0) := by
  cases rest <;> rfl

theorem pagination_marker_states (r : Page) (rest : List Page)
    (qm : Option (Option String)) (hq : loopContinues qm = true) :
    ((r.continuationMarker = Option.none ∨ r.continuationMarker = some Option.none) →
      runFetch (r :: rest) qm = some (r.records, 1)) ∧
    (∀ t, r.continuationMarker = some (some t) →
      runFetch (r :: rest) qm =
        (runFetch rest (some (some t))).map (fun p => (r.records ++ p.1, p.2 + 1))) := by
  constructor
  · rintro (hm | hm) <;>
      simp [runFetch, hq, hm, markerGet, runFetch_stop]
  · intro t hm
    have hstep : runFetch (r :: rest) qm
        = match runFetch rest (some (markerGet r.continuationMarker)) with
          | some p => some (r.records ++ p.1, p.2 + 1)
          | Option.none => Option.none := by
      simp [runFetch, hq]
    rw [hstep, hm]
    simp only [markerGet]
    cases runFetch rest (some (some t)) with
    | some p => rfl
    | none => rfl

/-- Witness for C1 amended: from a fresh query, a token response is
followed by a null response — two requests, records concatenated. -/
theorem pagination_marker_states_witness :
    runFetch [pageB, pageC] Option.none =
      (runFetch [pageC] (some (some "tok1"))).map
        (fun p => (pageB.records ++ p.1, p.2 + 1)) :=
  (pagination_marker_states pageB [pageC] Option.none rfl).2 "tok1" rfl

/-! ### Zone resolution (reminders.py lines 914-1123)

`ZoneObject.from_record` / `ZoneIDObject.from_record` validate a zone
record from the `zones/list` response; `ZonesContainer.__getitem__` scans
the fetched zones for one whose `zoneID.zoneName` equals the requested
name and raises `KeyError` otherwise. `RemindersService.__init__` looks
up the primary zone `"Reminders"`; its `if not zone:` guard (which would
raise `PyiCloudServiceNotActivatedException`) can never fire, because
`__getitem__` either returns a (truthy) object or raises `KeyError`
first. -/

structure ZoneIDObject where
  zone_name : PyVal
  zone_type : PyVal
  owner_record_name : PyVal
deriving DecidableEq

/-- Model of `ZoneIDObject.from_record` (lines 999-1021). -/
def ZoneIDObject.from_record (record : PyVal) : Except Err ZoneIDObject :=
  match record with
  | .dict es =>
    if !(memE es "zoneName") then .error (.apiResponse "missing zoneName")
    else if !(memE es "zoneType") then .error (.apiResponse "missing zoneType")
    else if !(memE es "ownerRecordName") then .error (.apiResponse "missing ownerRecordName")
    else .ok ⟨(lookupE es "zoneName").getD .none, (lookupE es "zoneType").getD .none,
      (lookupE es "ownerRecordName").getD .none⟩
  | _ => .error (.apiResponse "Record is not a dict")

structure ZoneObject where
  zone_id : ZoneIDObject
  atomic : PyVal
  is_eligible_for_hierarchical_share : PyVal
  is_eligible_for_zone_share : PyVal
  sync_token : PyVal
deriving DecidableEq

def pyIsStr : PyVal → Bool
  | .str _ => true
  | _ => false

/-- Model of `ZoneObject.from_record` (lines 917-974): schema validation of one
zone record (every fault a `PyiCloudAPIResponseException`), then
construction, whose `__init__` re-validates `zoneID` through
`ZoneIDObject.from_record`. -/
def ZoneObject.from_record (record : PyVal) : Except Err ZoneObject :=
  match record with
  | .dict es =>
    if isEmptyE es then .error (.apiResponse "Record is empty")
    else if !(memE es "atomic") then .error (.apiResponse "missing atomic")
    else if !(memE es "isEligibleForHierarchicalShare") then
      .error (.apiResponse "missing isEligibleForHierarchicalShare")
    else if !(memE es "isEligibleForZoneShare") then
      .error (.apiResponse "missing isEligibleForZoneShare")
    else if !(memE es "zoneID") then .error (.apiResponse "missing zoneID")
    else
      match (lookupE es "zoneID").getD .none with
      | .dict zes =>
        if !(memE zes "zoneName") then .error (.apiResponse "missing zoneName")
        else if !(memE zes "zoneType") then .error (.apiResponse "missing zoneType")
        else if !(memE zes "ownerRecordName") then
          .error (.apiResponse "missing ownerRecordName")
        else if memE es "syncToken" && !(pyIsStr ((lookupE es "syncToken").getD .none)) then
          .error (.apiResponse "bad syncToken")
        else do
          let zid ← ZoneIDObject.from_record (.dict zes)
          .ok ⟨zid, (lookupE es "atomic").getD .none,
            (lookupE es "isEligibleForHierarchicalShare").getD .none,
            (lookupE es "isEligibleForZoneShare").getD .none,
            (lookupE es "syncToken").getD .none⟩
      | _ => .error (.apiResponse "zoneID not a dict")
  | _ => .error (.apiResponse "Record is empty")

/-- Model of `ZonesContainer._fetch_zones` (lines 1079-1090): materialize each
record of the `zones` array in order. -/
def fetch_zones : List PyVal → Except Err (List ZoneObject)
  | [] => .ok []
  | r :: rest => do
    let z ← ZoneObject.from_record r
    let zs ← fetch_zones rest
    pure (z :: zs)

/-- Model of `ZonesContainer.__getitem__` (lines 1057-1062): first zone whose name
matches, else `KeyError`. -/
def zonesGetItem : List ZoneObject → String → Except Err ZoneObject
  | [], name => .error (.keyError name)
  | z :: rest, name =>
    if z.zone_id.zone_name = .str name then .ok z else zonesGetItem rest name

/-- The zone-resolution step of `RemindersService.__init__` (lines
1111-1119), fed the `zones` array of the list-zones response. The
`if not zone:` guard is unreachable: `__getitem__` returns an (always
truthy) object or raises, so `PyiCloudServiceNotActivatedException` is
never raised. -/
def resolvePrimaryZone (zoneRecords : List PyVal) : Except Err ZoneObject := do
  let zs ← fetch_zones zoneRecords
  let zone ← zonesGetItem zs "Reminders"
  pure zone

/-- A well-formed zone record named `Other`. -/
def otherZoneRecord : PyVal :=
  .dict (.cons "atomic" (.bool true)
    (.cons "isEligibleForHierarchicalShare" (.bool false)
      (.cons "isEligibleForZoneShare" (.bool false)
        (.cons "zoneID"
          (.dict (.cons "zoneName" (.str "Other")
            (.cons "zoneType" (.str "REGULAR_CUSTOM_ZONE")
              (.cons "ownerRecordName" (.str "owner-1") .nil))))
          .nil))))

/-- A zone record missing `isEligibleForZoneShare`. -/
def malformedZoneRecord : PyVal :=
  .dict (.cons "atomic" (.bool true)
    (.cons "isEligibleForHierarchicalShare" (.bool false)
      (.cons "zoneID"
        (.dict (.cons "zoneName" (.str "Reminders")
          (.cons "zoneType" (.str "REGULAR_CUSTOM_ZONE")
            (.cons "ownerRecordName" (.str "owner-1") .nil))))
        .nil)))

/-- C2: when no zone is named `"Reminders"`, service initialization fails
with `KeyError` from `ZonesContainer.__getitem__` — NOT with
`PyiCloudServiceNotActivatedException` (`Err.serviceNotActivated`), whose
raise site is dead code behind `if not zone:`. The malformed-record
schema fault is a separate `PyiCloudAPIResponseException`. -/
theorem missing_reminders_zone_raises_keyerror :
    resolvePrimaryZone [otherZoneRecord] = .error (.keyError "Reminders") ∧
    resolvePrimaryZone [] = .error (.keyError "Reminders") ∧
    Err.keyError "Reminders" ≠ Err.serviceNotActivated ∧
    resolvePrimaryZone [malformedZoneRecord]
      = .error (.apiResponse "missing isEligibleForZoneShare") :=
  ⟨rfl, rfl, by decide, rfl⟩

/-! ### The lists container (`ListsContainer`, reminders.py lines 824-911)

`_fetch_lists` stores each materialized list under `record.name` —
`lists[record.name] = record` — and `get_by_id` (backing `__getitem__`)
indexes that dict directly. Only the two attributes the container touches
are modelled per materialized list. -/

structure MaterializedList where
  list_id : String
  name : String
deriving DecidableEq

def insertML (m : List (String × MaterializedList)) (k : String)
    (v : MaterializedList) : List (String × MaterializedList) :=
  match m with
  | [] => [(k, v)]
  | (k', v') :: rest => if k' = k then (k, v) :: rest else (k', v') :: insertML rest k v

def lookupML : List (String × MaterializedList) → String → Option MaterializedList
  | [], _ => Option.none
  | (k', v') :: rest, k => if k' = k then some v' else lookupML rest k

/-- The `lists[record.name] = record` loop of `_fetch_lists` (lines
902-911). -/
def fetch_lists_index (ls : List MaterializedList) : List (String × MaterializedList) :=
  ls.foldl (fun m r => insertML m r.name r) []

/-- Model of `ListsContainer.get_by_id` (lines 840-842). -/
def get_by_id (m : List (String × MaterializedList)) (list_id : String) :
    Except Err MaterializedList :=
  match lookupML m list_id with
  | some r => .ok r
  | Option.none => .error (.keyError list_id)

theorem lookupML_insertML (m : List (String × MaterializedList)) (k : String)
    (v : MaterializedList) (x : String) :
    lookupML (insertML m k v) x = if k = x then some v else lookupML m x := by
  induction m with
  | nil => simp [insertML, lookupML]
  | cons p rest ih =>
    obtain ⟨k', v'⟩ := p
    by_cases hk : k' = k
    · rw [show insertML ((k', v') :: rest) k v = (k, v) :: rest from by
        simp [insertML, hk]]
      by_cases hx : k = x
      · simp [lookupML, hx]
      · have : ¬ k' = x := by rw [hk]; exact hx
        simp [lookupML, hx, this]
    · rw [show insertML ((k', v') :: rest) k v = (k', v') :: insertML rest k v from by
        simp [insertML, hk]]
      by_cases hx : k' = x
      · have hkx : ¬ k = x := fun hc => hk (by rw [hx, hc])
        simp [lookupML, hx, hkx]
      · simp only [lookupML, if_neg hx, ih]

theorem fetch_lists_foldl_lookup (ls : List MaterializedList)
    (m : List (String × MaterializedList)) (x : String) :
    lookupML (ls.foldl (fun m r => insertML m r.name r) m) x =
      match ls.reverse.find? (fun r => r.name == x) with
      | some r => some r
      | Option.none => lookupML m x := by
  induction ls generalizing m with
  | nil => rfl
  | cons r ls ih =>
    rw [List.foldl_cons, ih, List.reverse_cons, List.find?_append]
    cases hfind : ls.reverse.find? (fun r => r.name == x) with
    | some q => rfl
    | none =>
      simp only [Option.or, List.find?]
      by_cases hn : r.name = x
      · simp [hn, lookupML_insertML]
      · have : (r.name == x) = false := by simp [hn]
        simp [this, lookupML_insertML, hn]

/-- C9: the lists container is keyed by display name, not by `list_id`:
looking up `x` (via `get_by_id` / `__getitem__`) returns the LAST list in
fetch order whose display name is `x`, and raises `KeyError` when no
list's display name equals `x`. Concretely, two lists with distinct ids
but the same name collapse to the later one, and looking a list up by its
actual `list_id` raises `KeyError`. -/
theorem lists_container_keyed_by_name :
    (∀ (ls : List MaterializedList) (x : String),
      get_by_id (fetch_lists_index ls) x =
        match ls.reverse.find? (fun r => r.name == x) with
        | some r => .ok r
        | Option.none => .error (.keyError x)) ∧
    get_by_id (fetch_lists_index [⟨"id1", "A"⟩, ⟨"id2", "A"⟩]) "A"
      = .ok ⟨"id2", "A"⟩ ∧
    get_by_id (fetch_lists_index [⟨"id1", "A"⟩, ⟨"id2", "A"⟩]) "id1"
      = .error (.keyError "id1") := by
  refine ⟨?_, by rfl, by rfl⟩
  intro ls x
  unfold get_by_id fetch_lists_index
  rw [fetch_lists_foldl_lookup]
  cases ls.reverse.find? (fun r => r.name == x) with
  | some q => rfl
  | none => rfl

/-- Witness for the universally quantified part of C9 at a one-element
fetch. -/
theorem lists_container_keyed_by_name_witness :
    get_by_id (fetch_lists_index [⟨"id9", "B"⟩]) "B" =
      match [MaterializedList.mk "id9" "B"].reverse.find? (fun r => r.name == "B") with
      | some r => .ok r
      | Option.none => .error (.keyError "B") :=
  lists_container_keyed_by_name.1 [⟨"id9", "B"⟩] "B"

end Reminders
